import Mathlib

/-!
Shallow embedding of `neurokit2/rsp/rsp_rate.py` and proofs about it.

Signals are modelled as `List ℚ` (exact arithmetic; the Python code uses
float64, but every property verified here is structural: lengths, indices,
dispatch, windowing and the identity of the rational constants that build
the two frequency banks, none of which depend on rounding).

The module under verification calls six external collaborators
(`rsp_peaks`, `signal_rate`, `signal_resample`, `signal_interpolate`,
`signal_filter` from the surrounding library, and numpy's
`corrcoef`/`sin`).  None of their code is part of the source under
verification, so they are injected as fields of a `Collaborators` record,
exactly as the design notes prescribe ("abstract each as a narrow
interface/capability ... injected"), and the documented length contracts
become explicit hypotheses of the theorems that need them.
-/

/-- Floor of a rational, written the way `Rat.floor_def` states it, so that
it is kernel-computable and provably equal to `Int.floor`. -/
def qfloor (q : ℚ) : ℤ := q.num / q.den

/-- Ceiling of a rational via `-⌊-q⌋`. -/
def qceil (q : ℚ) : ℤ := -qfloor (-q)

/-- Length of `np.arange(start, stop, step)` for a positive `step`:
`max 0 ⌈(stop - start) / step⌉`, which is numpy's documented count. -/
def arangeLen (start stop step : ℚ) : ℕ :=
  if start < stop then (qceil ((stop - start) / step)).toNat else 0

/-- `np.arange(start, stop, step)` over ℚ: `start + i * step` for
`i = 0, ..., arangeLen - 1`. -/
def arangeQ (start stop step : ℚ) : List ℚ :=
  (List.range (arangeLen start stop step)).map (fun (i : ℕ) => start + (i : ℚ) * step)

/-- The candidate bank used on line 91 of the source to synthesize the
reference sine waves: `np.arange(5/60, 30.25/60, 0.25/50)`. -/
def genBank : List ℚ := arangeQ (5/60) (30.25/60) (0.25/50)

/-- The bank used on line 99 of the source to map the winning index back to
a frequency: `np.arange(5/60, 30.25/60, 0.25/60)`.  Note the step differs
from `genBank`. -/
def lookupBank : List ℚ := arangeQ (5/60) (30.25/60) (0.25/60)

/-- `np.max` of a list (maximum, `0` on the empty list; the source never
applies it to an empty array inside an accepted window). -/
def npMax : List ℚ → ℚ
  | [] => 0
  | x :: xs => xs.foldl max x

/-- `np.argmax`: index of the first occurrence of the maximum value. -/
def argmaxIdx (l : List ℚ) : ℕ := l.indexOf (npMax l)

/-- `np.ediff1d`: successive differences `l[i+1] - l[i]`. -/
def ediff1d (l : List ℚ) : List ℚ := (l.zip l.tail).map (fun p => p.2 - p.1)

/-- Lines 85-86 of the source: `diff = np.ediff1d(window_segment)` followed
by `norm_diff = diff / np.max(diff)` — division by the signed maximum. -/
def normDiff (segment : List ℚ) : List ℚ :=
  (ediff1d segment).map (fun d => d / npMax (ediff1d segment))

/-- Python's `str.lower()`, modelled character by character so that it is
kernel-computable (the method strings used here are ASCII). -/
def pyLower (s : String) : String := ⟨s.data.map Char.toLower⟩

/-- The external collaborators of `rsp_rate`, injected as a record of pure
functions.  `rsp_peaks`, `signal_rate`, `signal_resample`,
`signal_interpolate` and `signal_filter` model the library functions
imported at the top of the source file (argument lists follow the call
sites; `rsp_peaks` returns only the peak list, its `info` component being
discarded by the caller).  `xcorrScore` models lines 92-96: the synthesis
of `sin(2*pi*frequency*linspace(0, window, len(diff)))` followed by
`np.corrcoef(norm_diff, sin_wave)[0, 1]`, as a function of the normalized
difference, the window duration and the candidate frequency; sine and the
Pearson coefficient are transcendental library primitives, so only their
interface is modelled — no claim below depends on their values. -/
structure Collaborators where
  rsp_peaks : List ℚ → ℕ → String → List ℕ
  signal_rate : List ℕ → ℕ → ℕ → String → List ℚ
  signal_resample : List ℚ → ℕ → ℕ → List ℚ
  signal_interpolate : List ℕ → List ℚ → ℕ → String → List ℚ
  signal_filter : List ℚ → ℚ → ℕ → ℕ → List ℚ
  xcorrScore : List ℚ → ℚ → ℚ → ℚ

/-- Lines 84-101 of the source, for one accepted window: correlate the
normalized difference with a sine for every frequency of `genBank`
(in order), take `np.argmax`, and look the winning index up in
`lookupBank` (line 99). -/
def windowEstimate (C : Collaborators) (window : ℕ) (segment : List ℚ) : ℚ :=
  let xcorr := genBank.map (fun frequency => C.xcorrScore (normDiff segment) (window : ℚ) frequency)
  lookupBank.getD (argmaxIdx xcorr) 0

/-- The start offsets visited by `for start in np.arange(0, N, hop_size)`:
`0, hop_size, 2*hop_size, ...` below `N` (⌈N / hop_size⌉ of them). -/
def windowStarts (N hop_size : ℕ) : List ℕ :=
  (List.range ((N + hop_size - 1) / hop_size)).map (fun k => k * hop_size)

/-- The starts whose slice `rsp[start : start + window_length]` is a full
window: the loop `break`s at the first short segment, which is `takeWhile`
on the visited starts (lines 81-83 of the source). -/
def acceptedStarts (rsp : List ℚ) (N window_length hop_size : ℕ) : List ℕ :=
  (windowStarts N hop_size).takeWhile
    (fun start => decide (window_length ≤ ((rsp.drop start).take window_length).length))

/-- The per-window frequency trajectory `rsp_rate` accumulated by the loop
of `_rsp_rate_xcorr`: one estimate per accepted window, in order. -/
def xcorrTrajectory (C : Collaborators) (window : ℕ) (rsp : List ℚ)
    (N window_length hop_size : ℕ) : List ℚ :=
  (acceptedStarts rsp N window_length hop_size).map
    (fun start => windowEstimate C window ((rsp.drop start).take window_length))

/-- `_rsp_rate_xcorr`: downsample to 10 Hz, slide windows (loop bound `N` is
the ORIGINAL length, starts index the DOWNSAMPLED array, exactly as in the
source), interpolate the trajectory to `len(rsp_cleaned)` points, low-pass
filter (highcut 0.1, order 4) and convert to breaths/minute (`* 60`). -/
def rsp_rate_xcorr (C : Collaborators) (rsp_cleaned : List ℚ)
    (sampling_rate window hop_size : ℕ) : List ℚ :=
  let N := rsp_cleaned.length
  let rsp := C.signal_resample rsp_cleaned sampling_rate 10
  let window_length := 10 * window
  let traj := xcorrTrajectory C window rsp N window_length hop_size
  let interpolated := C.signal_interpolate (List.range traj.length) traj rsp_cleaned.length "linear"
  let smoothed := C.signal_filter interpolated (0.1 : ℚ) 4 sampling_rate
  smoothed.map (fun v => v * 60)

/-- The peak branch of `rsp_rate` (lines 45-48): detect peaks when none are
supplied, then delegate to `signal_rate` with
`desired_length = len(rsp_cleaned)`. -/
def rsp_rate_peak (C : Collaborators) (rsp_cleaned : List ℚ) (peaks : Option (List ℕ))
    (sampling_rate : ℕ) (peak_method : String) : List ℚ :=
  let pk := match peaks with
    | some p => p
    | none => C.rsp_peaks rsp_cleaned sampling_rate peak_method
  C.signal_rate pk sampling_rate rsp_cleaned.length "linear"

/-- The exact `ValueError` message raised on lines 55-58 of the source
(a fixed constant: it does not mention the offending method string). -/
def invalidMethodMsg : String :=
  "NeuroKit error: rsp_rate(): \x27method\x27 should be one of \x27peak\x27, or \x27cross-correlation\x27."

/-- The public entry point `rsp_rate`: dispatch on `method.lower()`;
errors are modelled with `Except` (the `ValueError` branch). -/
def rsp_rate (C : Collaborators) (rsp_cleaned : List ℚ) (peaks : Option (List ℕ))
    (sampling_rate window hop_size : ℕ) (method peak_method : String) :
    Except String (List ℚ) :=
  if ["peak", "peaks", "signal_rate"].contains (pyLower method) then
    .ok (rsp_rate_peak C rsp_cleaned peaks sampling_rate peak_method)
  else if ["cross-correlation", "xcorr"].contains (pyLower method) then
    .ok (rsp_rate_xcorr C rsp_cleaned sampling_rate window hop_size)
  else
    .error invalidMethodMsg

/-- Concrete collaborator instance used by the witnesses: each field is the
simplest function honouring the documented length contracts of section 6 of
the specification. -/
def Cdemo : Collaborators where
  rsp_peaks := fun _ _ _ => []
  signal_rate := fun _ _ desired_length _ => List.replicate desired_length 0
  signal_resample := fun signal _ _ => signal
  signal_interpolate := fun _ _ x_new _ => List.replicate x_new 0
  signal_filter := fun signal _ _ _ => signal
  xcorrScore := fun _ _ _ => 0

/-- Collaborator instance whose resampler shortens the signal in the ratio
of the sampling rates (`desired / native`), as a real 1000 Hz → 10 Hz
downsampler does. -/
def Cshort : Collaborators :=
  { Cdemo with
    signal_resample := fun signal sampling_rate desired =>
      signal.take (signal.length * desired / sampling_rate) }

/-- A three-sample demo signal. -/
def sigA : List ℚ := [1, 2, 3]

/-- A 30-sample signal: at 1000 Hz this is 0.03 s of data, far shorter than
one 10 s analysis window. -/
def sig3 : List ℚ := List.replicate 30 0

/-- A strictly decreasing demo window, whose first-order difference has a
negative maximum. -/
def segW : List ℚ := [3, 2, 0]

/-- A 25-sample downsampled signal for the windowing witness. -/
def rspW : List ℚ := List.replicate 25 0

theorem qfloor_eq (q : ℚ) : qfloor q = ⌊q⌋ := Rat.floor_def.symm

theorem qceil_eq (q : ℚ) : qceil q = ⌈q⌉ := by
  rw [qceil, qfloor_eq, Int.floor_neg, neg_neg]

theorem arangeLen_gen : arangeLen (5/60) (30.25/60) (0.25/50) = 85 := by
  rw [arangeLen, if_pos (by norm_num), qceil_eq]
  have h1 : ((30.25:ℚ)/60 - 5/60) / (0.25/50) = 505/6 := by norm_num
  have h2 : ⌈(505:ℚ)/6⌉ = 85 := by
    rw [Int.ceil_eq_iff]
    constructor <;> norm_num
  rw [h1, h2]
  rfl

theorem arangeLen_lookup : arangeLen (5/60) (30.25/60) (0.25/60) = 101 := by
  rw [arangeLen, if_pos (by norm_num), qceil_eq]
  have h1 : ((30.25:ℚ)/60 - 5/60) / (0.25/60) = 101 := by norm_num
  have h2 : ⌈(101:ℚ)⌉ = 101 := by
    rw [Int.ceil_eq_iff]
    constructor <;> norm_num
  rw [h1, h2]
  rfl

theorem genBank_length : genBank.length = 85 := by
  rw [genBank, arangeQ, List.length_map, List.length_range, arangeLen_gen]

theorem lookupBank_length : lookupBank.length = 101 := by
  rw [lookupBank, arangeQ, List.length_map, List.length_range, arangeLen_lookup]

theorem getD_map_range (n i : ℕ) (f : ℕ → ℚ) (h : i < n) :
    ((List.range n).map f).getD i 0 = f i := by
  rw [List.getD_eq_getElem?_getD]
  simp [List.getElem?_map, List.getElem?_range h]

theorem arangeQ_bounds (start stop step : ℚ) (hstep : 0 < step) (x : ℚ)
    (hx : x ∈ arangeQ start stop step) : start ≤ x ∧ x < stop := by
  rw [arangeQ, List.mem_map] at hx
  obtain ⟨i, hi, rfl⟩ := hx
  rw [List.mem_range] at hi
  have hlt : start < stop := by
    by_contra hns
    rw [arangeLen, if_neg hns] at hi
    exact Nat.not_lt_zero i hi
  rw [arangeLen, if_pos hlt] at hi
  have hiz : (i : ℤ) < qceil ((stop - start) / step) := Int.lt_toNat.mp hi
  rw [qceil_eq] at hiz
  have hiq : (i : ℚ) < (stop - start) / step := by
    have := Int.lt_ceil.mp hiz
    exact_mod_cast this
  constructor
  · have h0 : (0:ℚ) ≤ (i : ℚ) * step := mul_nonneg (by positivity) hstep.le
    linarith
  · have := (lt_div_iff₀ hstep).mp hiq
    linarith

theorem self_le_foldl_max (xs : List ℚ) (a : ℚ) : a ≤ xs.foldl max a := by
  induction xs generalizing a with
  | nil => exact le_refl a
  | cons y ys ih => exact le_trans (le_max_left a y) (ih (max a y))

theorem le_foldl_max (xs : List ℚ) (a x : ℚ) (hx : x ∈ xs) : x ≤ xs.foldl max a := by
  induction xs generalizing a with
  | nil => cases hx
  | cons y ys ih =>
    rcases List.mem_cons.mp hx with rfl | h
    · exact le_trans (le_max_right a x) (self_le_foldl_max ys (max a x))
    · exact ih (max a y) h


theorem foldl_max_mem (xs : List ℚ) (a : ℚ) : xs.foldl max a = a ∨ xs.foldl max a ∈ xs := by
  induction xs generalizing a with
  | nil => exact Or.inl rfl
  | cons y ys ih =>
    rw [List.foldl_cons]
    rcases ih (max a y) with h | h
    · rw [h]
      rcases le_total a y with hy | hy
      · exact Or.inr (by rw [max_eq_right hy]; exact List.mem_cons_self y ys)
      · exact Or.inl (max_eq_left hy)
    · exact Or.inr (List.mem_cons_of_mem y h)

theorem npMax_mem (l : List ℚ) (h : l ≠ []) : npMax l ∈ l := by
  cases l with
  | nil => exact absurd rfl h
  | cons x xs =>
    show xs.foldl max x ∈ x :: xs
    rcases foldl_max_mem xs x with h1 | h1
    · rw [h1]; exact List.mem_cons_self x xs
    · exact List.mem_cons_of_mem x h1

theorem le_npMax (l : List ℚ) (x : ℚ) (hx : x ∈ l) : x ≤ npMax l := by
  cases l with
  | nil => cases hx
  | cons y ys =>
    show x ≤ ys.foldl max y
    rcases List.mem_cons.mp hx with rfl | h
    · exact self_le_foldl_max ys x
    · exact le_foldl_max ys y x h

theorem argmaxIdx_lt_length (l : List ℚ) (h : l ≠ []) : argmaxIdx l < l.length :=
  List.indexOf_lt_length.2 (npMax_mem l h)

theorem takeWhile_range_le : ∀ (n K : ℕ),
    (List.range n).takeWhile (fun k => decide (k ≤ K)) = List.range (min (K + 1) n)
  | 0, K => by simp
  | n+1, K => by
    rw [List.range_succ_eq_map, List.takeWhile_cons]
    simp only [decide_eq_true_eq, Nat.zero_le, if_true]
    rw [List.takeWhile_map]
    cases K with
    | zero =>
      have hp : ((fun k => decide (k ≤ 0)) ∘ Nat.succ) = fun _ => false := by
        funext k; simp
      rw [hp]
      have hfalse : (List.range n).takeWhile (fun _ => false) = [] := by
        cases n with
        | zero => rfl
        | succ m => rw [List.range_succ_eq_map, List.takeWhile_cons]; simp
      rw [hfalse]
      have h1 : List.range 1 = [0] := rfl
      simp [h1]
    | succ K1 =>
      have hp : ((fun k => decide (k ≤ K1 + 1)) ∘ Nat.succ) = fun k => decide (k ≤ K1) := by
        funext k; simp [Nat.succ_le_succ_iff]
      rw [hp, takeWhile_range_le n K1, ← List.range_succ_eq_map, Nat.succ_min_succ]

theorem acceptedStarts_eq (rsp : List ℚ) (N wl hop : ℕ)
    (hhop : 1 ≤ hop) (hwl : 1 ≤ wl) (hlen : wl ≤ rsp.length) (hN : rsp.length ≤ N) :
    acceptedStarts rsp N wl hop =
      (List.range ((rsp.length - wl) / hop + 1)).map (fun k => k * hop) := by
  rw [acceptedStarts, windowStarts, List.takeWhile_map]
  have hp : ((fun start => decide (wl ≤ ((rsp.drop start).take wl).length)) ∘ fun k => k * hop)
      = fun k => decide (k ≤ (rsp.length - wl) / hop) := by
    funext k
    simp only [Function.comp_apply, List.length_take, List.length_drop, decide_eq_decide]
    rw [Nat.le_div_iff_mul_le hhop]
    omega
  rw [hp, takeWhile_range_le]
  have hmin : min ((rsp.length - wl) / hop + 1) ((N + hop - 1) / hop)
      = (rsp.length - wl) / hop + 1 := by
    apply Nat.min_eq_left
    have h1 : (rsp.length - wl) / hop ≤ (N - 1) / hop := Nat.div_le_div_right (by omega)
    have h2 : (N - 1) / hop + 1 = (N - 1 + hop) / hop := (Nat.add_div_right _ hhop).symm
    have h3 : N - 1 + hop = N + hop - 1 := by omega
    rw [h3] at h2
    omega
  rw [hmin]

/-- Claim C1: whenever `rsp_rate` returns a rate series (either method), its
length equals the length of the input signal, assuming the collaborators
honour their documented length contracts (`signal_rate` and
`signal_interpolate` return `desired_length` points, `signal_filter`
preserves length). -/
theorem output_length_eq_input (C : Collaborators)
    (hrate : ∀ p sr n im, (C.signal_rate p sr n im).length = n)
    (hinterp : ∀ x y n im, (C.signal_interpolate x y n im).length = n)
    (hfilter : ∀ s hc o sr, (C.signal_filter s hc o sr).length = s.length)
    (rsp_cleaned : List ℚ) (peaks : Option (List ℕ)) (sampling_rate window hop_size : ℕ)
    (method peak_method : String) (out : List ℚ)
    (hok : rsp_rate C rsp_cleaned peaks sampling_rate window hop_size method peak_method
      = .ok out) :
    out.length = rsp_cleaned.length := by
  rw [rsp_rate] at hok
  split_ifs at hok with h1 h2
  · simp only [Except.ok.injEq] at hok
    subst hok
    exact hrate _ _ _ _
  · simp only [Except.ok.injEq] at hok
    subst hok
    rw [rsp_rate_xcorr]
    simp only [List.length_map]
    rw [hfilter, hinterp]

/-- Witness for C1 at a concrete input: the cross-correlation path on the
three-sample `sigA` with the demo collaborators returns a series of
length 3. -/
theorem output_length_eq_input_witness :
    ((List.replicate 3 (0:ℚ)).map (fun v => v * 60)).length = sigA.length :=
  output_length_eq_input Cdemo
    (fun _ _ n _ => List.length_replicate n 0)
    (fun _ _ n _ => List.length_replicate n 0)
    (fun _ _ _ _ => rfl)
    sigA none 1000 10 1 "xcorr" "khodadad2018" _ rfl

/-- Claim C2 (code bug): the correlation scan runs over `genBank`
(step `0.25/50`, 85 candidates) but the winning index is looked up in
`lookupBank` (step `0.25/60`, 101 candidates) — two different banks, not
one.  At argmax index 1 the frequency that synthesized the winning sine,
`5/60 + 0.25/50`, differs from the value appended to the trajectory,
`5/60 + 0.25/60`.  The final conjunct exhibits, definitionally, that the
per-window estimate is a `lookupBank` lookup of a `genBank` argmax. -/
theorem two_banks_divergence :
    genBank.length = 85 ∧ lookupBank.length = 101 ∧
    genBank.getD 1 0 = 5/60 + 0.25/50 ∧
    lookupBank.getD 1 0 = 5/60 + 0.25/60 ∧
    ((5:ℚ)/60 + 0.25/50 ≠ 5/60 + 0.25/60) ∧
    ∀ (C : Collaborators) (window : ℕ) (segment : List ℚ),
      windowEstimate C window segment =
        lookupBank.getD
          (argmaxIdx (genBank.map
            (fun frequency => C.xcorrScore (normDiff segment) (window : ℚ) frequency))) 0 := by
  refine ⟨genBank_length, lookupBank_length, ?_, ?_, by norm_num, fun C w seg => rfl⟩
  · rw [genBank, arangeQ, getD_map_range _ _ _ (by rw [arangeLen_gen]; omega)]
    norm_num
  · rw [lookupBank, arangeQ, getD_map_range _ _ _ (by rw [arangeLen_lookup]; omega)]
    norm_num

/-- Claim C3 (code bug): on a signal whose downsampled form is shorter than
one window, `_rsp_rate_xcorr` produces an empty trajectory and hands it
straight to `signal_interpolate` — the call returns normally
(`Except.ok`); no InsufficientData error is raised anywhere in the source.
`sig3` is 30 samples at 1000 Hz (0.03 s); the 10 s window needs 100
downsampled samples, and the realistic resampler of `Cshort` yields 0. -/
theorem short_signal_no_error :
    xcorrTrajectory Cshort 10 (Cshort.signal_resample sig3 1000 10) sig3.length (10 * 10) 1
      = [] ∧
    rsp_rate Cshort sig3 none 1000 10 1 "xcorr" "khodadad2018"
      = .ok ((List.replicate 30 (0:ℚ)).map (fun v => v * 60)) :=
  ⟨rfl, rfl⟩

/-- Claim C4: with a positive hop size and window duration, when the
downsampled signal holds at least one window (and is no longer than the
original signal, which is what a 10 Hz downsample of a ≥ 10 Hz recording
guarantees), the loop accepts exactly
`(downsampled_length - window_length) / hop + 1` windows, whose starts are
`0, hop, 2*hop, ...` in downsampled-array indices; every accepted window is
full (the trailing partial window is discarded), and each accepted window
contributes exactly one frequency estimate to the trajectory. -/
theorem window_count_formula (C : Collaborators) (rsp : List ℚ) (N window hop_size : ℕ)
    (hhop : 1 ≤ hop_size) (hwin : 1 ≤ window)
    (hlen : 10 * window ≤ rsp.length) (hN : rsp.length ≤ N) :
    acceptedStarts rsp N (10 * window) hop_size =
      (List.range ((rsp.length - 10 * window) / hop_size + 1)).map (fun k => k * hop_size) ∧
    (acceptedStarts rsp N (10 * window) hop_size).length =
      (rsp.length - 10 * window) / hop_size + 1 ∧
    (∀ s ∈ acceptedStarts rsp N (10 * window) hop_size, s + 10 * window ≤ rsp.length) ∧
    (xcorrTrajectory C window rsp N (10 * window) hop_size).length =
      (rsp.length - 10 * window) / hop_size + 1 := by
  have hwl : 1 ≤ 10 * window := by omega
  have heq := acceptedStarts_eq rsp N (10 * window) hop_size hhop hwl hlen hN
  refine ⟨heq, ?_, ?_, ?_⟩
  · rw [heq, List.length_map, List.length_range]
  · intro s hs
    rw [heq, List.mem_map] at hs
    obtain ⟨k, hk, rfl⟩ := hs
    rw [List.mem_range] at hk
    have hk2 : k ≤ (rsp.length - 10 * window) / hop_size := by omega
    have := (Nat.le_div_iff_mul_le hhop).mp hk2
    omega
  · rw [xcorrTrajectory, List.length_map, heq, List.length_map, List.length_range]

/-- Witness for C4: 25 downsampled samples, window length 10, hop 4 ⇒
(25 - 10) / 4 + 1 = 4 accepted windows, hence 4 trajectory points. -/
theorem window_count_formula_witness :
    (xcorrTrajectory Cdemo 1 rspW 250 (10 * 1) 4).length = 4 := by
  have h := (window_count_formula Cdemo rspW 250 1 4 (by norm_num) (by norm_num)
    (by simp [rspW]) (by simp [rspW])).2.2.2
  simpa [rspW] using h

/-- Claim C5 counterexample: the `ValueError` message is one fixed constant;
the calls with offending methods "bogus" and "junk" produce identical
results, so the message cannot identify the offending method string. -/
theorem invalid_method_message_not_identifying :
    rsp_rate Cdemo sigA none 1000 10 1 "bogus" "khodadad2018" = .error invalidMethodMsg ∧
    rsp_rate Cdemo sigA none 1000 10 1 "bogus" "khodadad2018" =
      rsp_rate Cdemo sigA none 1000 10 1 "junk" "khodadad2018" :=
  ⟨rfl, rfl⟩

/-- Claim C5 (amended): for every method string outside the five accepted
aliases (lower-cased), `rsp_rate` raises the fixed `ValueError` naming the
canonical accepted methods, and does so for every collaborator instance —
no peak detection, resampling or windowing can influence the result. -/
theorem invalid_method_fixed_error (C : Collaborators) (rsp_cleaned : List ℚ)
    (peaks : Option (List ℕ)) (sampling_rate window hop_size : ℕ)
    (method peak_method : String)
    (h1 : (["peak", "peaks", "signal_rate"].contains (pyLower method)) = false)
    (h2 : (["cross-correlation", "xcorr"].contains (pyLower method)) = false) :
    rsp_rate C rsp_cleaned peaks sampling_rate window hop_size method peak_method
      = .error invalidMethodMsg := by
  rw [rsp_rate, h1, h2]
  rfl

/-- Witness for amended C5 at the concrete offending method "bogus". -/
theorem invalid_method_fixed_error_witness :
    rsp_rate Cdemo sigA none 1000 10 1 "bogus" "khodadad2018" = .error invalidMethodMsg :=
  invalid_method_fixed_error Cdemo sigA none 1000 10 1 "bogus" "khodadad2018"
    (by decide) (by decide)

/-- Claim C6: dispatch is case-insensitive over the closed alias set:
lower-cased members of \x7b"peak","peaks","signal_rate"\x7d route to the
peak-based estimator, lower-cased members of
\x7b"cross-correlation","xcorr"\x7d to the cross-correlation estimator, and
when `peaks` is `none` the peak path invokes the peak detector with the
caller-chosen variant and feeds its output to `signal_rate`. -/
theorem dispatch_case_insensitive (C : Collaborators) (rsp_cleaned : List ℚ)
    (peaks : Option (List ℕ)) (sampling_rate window hop_size : ℕ)
    (method peak_method : String) :
    ((["peak", "peaks", "signal_rate"].contains (pyLower method)) = true →
      rsp_rate C rsp_cleaned peaks sampling_rate window hop_size method peak_method =
        .ok (rsp_rate_peak C rsp_cleaned peaks sampling_rate peak_method)) ∧
    ((["cross-correlation", "xcorr"].contains (pyLower method)) = true →
      rsp_rate C rsp_cleaned peaks sampling_rate window hop_size method peak_method =
        .ok (rsp_rate_xcorr C rsp_cleaned sampling_rate window hop_size)) ∧
    rsp_rate_peak C rsp_cleaned none sampling_rate peak_method =
      C.signal_rate (C.rsp_peaks rsp_cleaned sampling_rate peak_method) sampling_rate
        rsp_cleaned.length "linear" := by
  refine ⟨fun h1 => ?_, fun h2 => ?_, rfl⟩
  · rw [rsp_rate, h1]
    rfl
  · have hmem : pyLower method ∈ ["cross-correlation", "xcorr"] := by
      simpa using h2
    have h1 : (["peak", "peaks", "signal_rate"].contains (pyLower method)) = false := by
      simp only [List.mem_cons, List.not_mem_nil, or_false] at hmem
      rcases hmem with h | h <;> rw [h] <;> decide
    rw [rsp_rate, h1, h2]
    rfl

/-- Witness for C6: "SIGNAL_RATE" routes to the peak path and
"Cross-Correlation" to the cross-correlation path. -/
theorem dispatch_case_insensitive_witness :
    rsp_rate Cdemo sigA none 1000 10 1 "SIGNAL_RATE" "khodadad2018" =
      .ok (rsp_rate_peak Cdemo sigA none 1000 "khodadad2018") ∧
    rsp_rate Cdemo sigA none 1000 10 1 "Cross-Correlation" "khodadad2018" =
      .ok (rsp_rate_xcorr Cdemo sigA 1000 10 1) :=
  ⟨(dispatch_case_insensitive Cdemo sigA none 1000 10 1 "SIGNAL_RATE" "khodadad2018").1
      (by decide),
   (dispatch_case_insensitive Cdemo sigA none 1000 10 1 "Cross-Correlation"
      "khodadad2018").2.1 (by decide)⟩

/-- Claim C7: per-window preprocessing takes the first-order difference
(one element shorter than the window) and divides by the SIGNED maximum
(`np.max`): when that maximum is negative every difference is negative and
every normalized element is positive — the sign flips. -/
theorem normalization_signed_max (segment : List ℚ) :
    (ediff1d segment).length = segment.length - 1 ∧
    normDiff segment = (ediff1d segment).map (fun d => d / npMax (ediff1d segment)) ∧
    (npMax (ediff1d segment) < 0 → ∀ d ∈ ediff1d segment, d < 0) ∧
    (npMax (ediff1d segment) < 0 → ∀ x ∈ normDiff segment, 0 < x) := by
  refine ⟨?_, rfl, fun hneg d hd => lt_of_le_of_lt (le_npMax _ d hd) hneg, ?_⟩
  · rw [ediff1d, List.length_map, List.length_zip, List.length_tail]
    omega
  · intro hneg x hx
    rw [normDiff, List.mem_map] at hx
    obtain ⟨d, hd, rfl⟩ := hx
    exact div_pos_of_neg_of_neg (lt_of_le_of_lt (le_npMax _ d hd) hneg) hneg

/-- Witness for C7 on `segW = [3, 2, 0]`: the differences have maximum
`-1 < 0` and the first normalized element is positive. -/
theorem normalization_signed_max_witness :
    npMax (ediff1d segW) < 0 ∧ 0 < (normDiff segW).getD 0 0 := by
  have hd : ediff1d segW = [-1, -2] := by
    show ([(3:ℚ), 2, 0].zip [2, 0]).map (fun p => p.2 - p.1) = [-1, -2]
    simp only [List.zip_cons_cons, List.zip_nil_right, List.map_cons, List.map_nil]
    norm_num
  have hmax : npMax (ediff1d segW) < 0 := by
    rw [hd]
    show List.foldl max (-1) [-2] < 0
    simp only [List.foldl_cons, List.foldl_nil]
    rw [max_eq_left (by norm_num : (-2:ℚ) ≤ -1)]
    norm_num
  refine ⟨hmax, ?_⟩
  have hpos := (normalization_signed_max segW).2.2.2 hmax
  have hlen : 0 < (normDiff segW).length := by
    rw [normDiff, List.length_map, hd]
    norm_num
  have hgd : (normDiff segW).getD 0 0 = (normDiff segW)[0] := by
    rw [List.getD_eq_getElem?_getD, List.getElem?_eq_getElem hlen]
    rfl
  rw [hgd]
  exact hpos _ (List.getElem_mem hlen)

/-- Claim C8: `rsp_rate` is deterministic — two calls with identical
arguments (same collaborators, signal, peaks, rates and parameters) return
identical results; the embedding is a pure function and the source reads no
global mutable state. -/
theorem rsp_rate_deterministic (C : Collaborators)
    (s1 s2 : List ℚ) (p1 p2 : Option (List ℕ)) (sr1 sr2 w1 w2 hop1 hop2 : ℕ)
    (m1 m2 pm1 pm2 : String)
    (hs : s1 = s2) (hp : p1 = p2) (hsr : sr1 = sr2) (hw : w1 = w2) (hh : hop1 = hop2)
    (hm : m1 = m2) (hpm : pm1 = pm2) :
    rsp_rate C s1 p1 sr1 w1 hop1 m1 pm1 = rsp_rate C s2 p2 sr2 w2 hop2 m2 pm2 := by
  rw [hs, hp, hsr, hw, hh, hm, hpm]

/-- Witness for C8: two identical concrete calls agree. -/
theorem rsp_rate_deterministic_witness :
    rsp_rate Cdemo sigA none 1000 10 1 "peak" "khodadad2018" =
      rsp_rate Cdemo sigA none 1000 10 1 "peak" "khodadad2018" :=
  rsp_rate_deterministic Cdemo sigA sigA none none 1000 1000 10 10 1 1
    "peak" "peak" "khodadad2018" "khodadad2018" rfl rfl rfl rfl rfl rfl rfl

/-- Claim C9: the argmax over the 85 correlations computed from `genBank`
is always a valid index into the 101-element `lookupBank`, so the lookup on
line 99 never goes out of bounds, and the looked-up frequency always lies
in `[5/60, 30.25/60)`. -/
theorem lookup_index_in_bounds (C : Collaborators) (window : ℕ) (segment : List ℚ) :
    genBank.length = 85 ∧ lookupBank.length = 101 ∧
    argmaxIdx (genBank.map
        (fun frequency => C.xcorrScore (normDiff segment) (window : ℚ) frequency))
      < lookupBank.length ∧
    (5:ℚ)/60 ≤ windowEstimate C window segment ∧
    windowEstimate C window segment < 30.25/60 := by
  have hne : genBank.map
      (fun frequency => C.xcorrScore (normDiff segment) (window : ℚ) frequency) ≠ [] := by
    intro h
    have hlen := congrArg List.length h
    rw [List.length_map, genBank_length] at hlen
    exact absurd hlen (by norm_num)
  have hidx := argmaxIdx_lt_length _ hne
  rw [List.length_map, genBank_length] at hidx
  have hidx2 : argmaxIdx (genBank.map
      (fun frequency => C.xcorrScore (normDiff segment) (window : ℚ) frequency))
      < lookupBank.length := by
    rw [lookupBank_length]
    omega
  have hval : windowEstimate C window segment =
      lookupBank.getD (argmaxIdx (genBank.map
        (fun frequency => C.xcorrScore (normDiff segment) (window : ℚ) frequency))) 0 := rfl
  have hmem : windowEstimate C window segment ∈ lookupBank := by
    rw [hval, List.getD_eq_getElem?_getD, List.getElem?_eq_getElem hidx2]
    exact List.getElem_mem hidx2
  have hb := arangeQ_bounds (5/60) (30.25/60) (0.25/60) (by norm_num)
    (windowEstimate C window segment) hmem
  exact ⟨genBank_length, lookupBank_length, hidx2, hb.1, hb.2⟩

/-- Claim C10: the peak path ignores `window` and `hop_size` — for any two
values of those parameters, a peak-method call returns the same output. -/
theorem peak_path_ignores_window_hop (C : Collaborators) (rsp_cleaned : List ℚ)
    (peaks : Option (List ℕ)) (sampling_rate : ℕ) (method peak_method : String)
    (hm : (["peak", "peaks", "signal_rate"].contains (pyLower method)) = true)
    (w1 hop1 w2 hop2 : ℕ) :
    rsp_rate C rsp_cleaned peaks sampling_rate w1 hop1 method peak_method =
      rsp_rate C rsp_cleaned peaks sampling_rate w2 hop2 method peak_method := by
  have e1 : rsp_rate C rsp_cleaned peaks sampling_rate w1 hop1 method peak_method =
      .ok (rsp_rate_peak C rsp_cleaned peaks sampling_rate peak_method) := by
    rw [rsp_rate, hm]
    rfl
  have e2 : rsp_rate C rsp_cleaned peaks sampling_rate w2 hop2 method peak_method =
      .ok (rsp_rate_peak C rsp_cleaned peaks sampling_rate peak_method) := by
    rw [rsp_rate, hm]
    rfl
  rw [e1, e2]

/-- Witness for C10: "Peaks" with (window, hop) = (3, 7) and (99, 5). -/
theorem peak_path_ignores_window_hop_witness :
    rsp_rate Cdemo sigA none 1000 3 7 "Peaks" "khodadad2018" =
      rsp_rate Cdemo sigA none 1000 99 5 "Peaks" "khodadad2018" :=
  peak_path_ignores_window_hop Cdemo sigA none 1000 "Peaks" "khodadad2018"
    (by decide) 3 7 99 5
